import Mathlib

/-!
Verification of the trading-bot core against its specification.

The Rust source is embedded shallowly: `f64` prices and quantities become `ℚ`,
`HashMap<String, f64>` becomes an association list with replacing insert,
channel sends become lists of emitted values, and the mutable `RiskManager` /
`PaperClient` / `Engine` state becomes explicit state records threaded through
pure step functions.  Timestamps (`chrono::DateTime`) are omitted: no verified
property mentions them.  Fresh UUIDs for order ids are modelled by an explicit
id supply passed to the functions that draw them.
-/

namespace ClawBot

/-- Side of a trade (crates/common/src/types.rs, OrderSide). -/
inductive OrderSide
  | Buy
  | Sell
deriving DecidableEq, Repr

/-- Engine lifecycle state (crates/common/src/types.rs, EngineState). -/
inductive EngineState
  | Stopped
  | Running
  | Paused
  | Halted
deriving DecidableEq, Repr

/-- Commands accepted on the engine command channel (crates/common/src/types.rs). -/
inductive EngineCommand
  | Start
  | Stop
  | Pause
  | Resume
  | ResetDrawdown
deriving DecidableEq, Repr

/-- Whether the bot runs live or simulated (crates/common/src/types.rs). -/
inductive TradingMode
  | Live
  | Paper
deriving DecidableEq, Repr

/-- An order to be submitted to the exchange (crates/common/src/types.rs, Order).
`price = none` means market order. -/
structure Order where
  id : String
  pair : String
  side : OrderSide
  quantity : ℚ
  price : Option ℚ
deriving DecidableEq, Repr

/-- `Order::market` constructor.  The Rust code draws a fresh UUID for `id`;
here the fresh id is an explicit argument. -/
def Order.market (id pair : String) (side : OrderSide) (quantity : ℚ) : Order :=
  { id := id, pair := pair, side := side, quantity := quantity, price := none }

/-- Confirmation of a filled order (crates/common/src/types.rs, Fill);
the `timestamp` field is omitted. -/
structure Fill where
  order_id : String
  pair : String
  side : OrderSide
  fill_price : ℚ
  quantity : ℚ
deriving DecidableEq, Repr

/-- Strategy recommendation (crates/common/src/types.rs, Signal). -/
inductive Signal
  | Buy (pair : String) (quantity : ℚ)
  | Sell (pair : String) (quantity : ℚ)
deriving DecidableEq, Repr

/-- `Signal::pair` accessor. -/
def Signal.pair : Signal → String
  | Signal.Buy p _ => p
  | Signal.Sell p _ => p

/-- `Signal::quantity` accessor. -/
def Signal.quantity : Signal → ℚ
  | Signal.Buy _ q => q
  | Signal.Sell _ q => q

/-- `Signal::side` accessor. -/
def Signal.side : Signal → OrderSide
  | Signal.Buy _ _ => OrderSide.Buy
  | Signal.Sell _ _ => OrderSide.Sell

/-- An open trading position (crates/common/src/types.rs, Position);
the `opened_at` timestamp is omitted. -/
structure Position where
  id : String
  pair : String
  side : OrderSide
  entry_price : ℚ
  quantity : ℚ
  mode : TradingMode
deriving DecidableEq, Repr

/-- Reason an order was rejected by the Risk Manager (crates/common/src/types.rs). -/
inductive RejectionReason
  | ExposureLimitExceeded
  | StopLossProximity
  | HardCeilingReached
  | DrawdownHalt
  | Other (s : String)
deriving DecidableEq, Repr

/-- Events emitted by the Risk Manager (crates/common/src/types.rs, RiskEvent). -/
inductive RiskEvent
  | OrderRejected (signal : Signal) (reason : RejectionReason)
  | StopLossTriggered (pair : String) (close_price : ℚ)
  | TakeProfitTriggered (pair : String) (close_price : ℚ)
  | OrderFailed (pair : String) (error : String)
  | DrawdownHaltEntered (drawdown_pct : ℚ)
  | DrawdownHaltExited
deriving DecidableEq, Repr

/-- Live market data event (crates/common/src/types.rs, MarketEvent);
`open` is renamed `openPrice` (Lean keyword) and `timestamp` omitted. -/
structure MarketEvent where
  pair : String
  price : ℚ
  openPrice : ℚ
  high : ℚ
  low : ℚ
  volume : ℚ
  is_candle_closed : Bool
deriving DecidableEq, Repr

/-- Lookup in the association-list model of `HashMap<String, f64>`:
first binding for the key, if any. -/
def lookupPrice (m : List (String × ℚ)) (k : String) : Option ℚ :=
  match m with
  | [] => none
  | (k0, v0) :: rest => if k0 = k then some v0 else lookupPrice rest k

/-- Insert in the association-list model of `HashMap<String, f64>`:
replaces the existing binding for the key, else appends. -/
def insertPrice (m : List (String × ℚ)) (k : String) (v : ℚ) : List (String × ℚ) :=
  match m with
  | [] => [(k, v)]
  | (k0, v0) :: rest => if k0 = k then (k, v) :: rest else (k0, v0) :: insertPrice rest k v

/-- Remove the first position whose id matches, as
`RiskManager::remove_position` does via `iter().position(..)` + `remove(idx)`. -/
def removeById (ps : List Position) (pid : String) : List Position :=
  match ps with
  | [] => []
  | p :: rest => if p.id = pid then rest else p :: removeById rest pid

/-- Remove the first position whose pair matches, as the paper backend's Sell
arm does via `iter().position(|p| p.pair == order.pair)` + `remove(idx)`. -/
def removeFirstByPair (ps : List Position) (pair : String) : List Position :=
  match ps with
  | [] => []
  | p :: rest => if p.pair = pair then rest else p :: removeFirstByPair rest pair

/-! ### Paper backend (crates/paper/src/lib.rs) -/

/-- Error type; only the `Exchange` kind reaches the paper backend
(crates/common/src/error.rs). -/
inductive ExchangeError
  | Exchange (msg : String)
deriving DecidableEq, Repr

/-- State of `PaperClient`: in-memory position ledger, latest-price cache,
slippage in basis points.  `balance_usd` is dead code in the source and omitted. -/
structure PaperState where
  positions : List Position
  prices : List (String × ℚ)
  slippage_bps : ℚ
deriving DecidableEq, Repr

/-- `PaperClient::update_price`. -/
def PaperClient.updatePrice (c : PaperState) (pair : String) (price : ℚ) : PaperState :=
  { c with prices := insertPrice c.prices pair price }

/-- `PaperClient::submit_order`: fail with `Exchange` when no price is cached
for the order's pair; otherwise fill at mid adjusted by slippage
(Buy pays more, Sell receives less), append a position on Buy, and remove the
first position matching the pair on Sell. -/
def PaperClient.submitOrder (c : PaperState) (order : Order) :
    Except ExchangeError (Fill × PaperState) :=
  match lookupPrice c.prices order.pair with
  | none => Except.error (ExchangeError.Exchange
      ("PaperClient has no price for pair " ++ order.pair))
  | some mid_price =>
    let fill_price : ℚ :=
      match order.side with
      | OrderSide.Buy => mid_price * (1 + c.slippage_bps / 10000)
      | OrderSide.Sell => mid_price * (1 - c.slippage_bps / 10000)
    let fill : Fill :=
      { order_id := order.id, pair := order.pair, side := order.side,
        fill_price := fill_price, quantity := order.quantity }
    let positions' : List Position :=
      match order.side with
      | OrderSide.Buy =>
          c.positions ++
            [{ id := order.id, pair := order.pair, side := OrderSide.Buy,
               entry_price := fill_price, quantity := order.quantity,
               mode := TradingMode.Paper }]
      | OrderSide.Sell => removeFirstByPair c.positions order.pair
    Except.ok (fill, { c with positions := positions' })

/-! ### Engine lifecycle (crates/engine/src/lifecycle.rs) -/

/-- One iteration of `Engine::run`'s command match, projected onto the
`EngineState` it leaves behind.  Start sets Running unless already Running
(a logged no-op); Stop sets Stopped unconditionally; Pause / Resume /
ResetDrawdown are guarded by the current state. -/
def Engine.step (s : EngineState) : EngineCommand → EngineState
  | EngineCommand.Start => if s = EngineState.Running then s else EngineState.Running
  | EngineCommand.Stop => EngineState.Stopped
  | EngineCommand.Pause => if s = EngineState.Running then EngineState.Paused else s
  | EngineCommand.Resume => if s = EngineState.Paused then EngineState.Running else s
  | EngineCommand.ResetDrawdown =>
      if s = EngineState.Halted then EngineState.Running else s

/-- The transition relation exactly as the claim states it ("and nothing
more"): Start only from Stopped, Stop only from Running or Paused, every other
(state, command) pair a no-op.  Kept separate from `Engine.step` (which is
translated from the source) for comparison. -/
def Engine.claimedStep (s : EngineState) (c : EngineCommand) : EngineState :=
  match s, c with
  | EngineState.Stopped, EngineCommand.Start => EngineState.Running
  | EngineState.Running, EngineCommand.Pause => EngineState.Paused
  | EngineState.Paused, EngineCommand.Resume => EngineState.Running
  | EngineState.Running, EngineCommand.Stop => EngineState.Stopped
  | EngineState.Paused, EngineCommand.Stop => EngineState.Stopped
  | EngineState.Halted, EngineCommand.ResetDrawdown => EngineState.Running
  | s, _ => s

/-! ### Risk manager (crates/risk/src/manager.rs) -/

/-- Hard ceiling on simultaneous open orders (manager.rs, MAX_OPEN_ORDERS). -/
def MAX_OPEN_ORDERS : ℕ := 5

/-- User-configurable risk parameters (manager.rs, RiskConfig). -/
structure RiskConfig where
  stop_loss_pct : ℚ
  take_profit_pct : ℚ
  max_exposure_per_trade_usd : ℚ
  max_drawdown_pct : ℚ
deriving DecidableEq, Repr

/-- `RiskConfig::default()`. -/
def RiskConfig.default : RiskConfig :=
  { stop_loss_pct := 2/100, take_profit_pct := 4/100,
    max_exposure_per_trade_usd := 100, max_drawdown_pct := 10/100 }

/-- Mutable state visible to the risk manager: the shared `EngineState` and
open-positions list, its own portfolio value / peak, and the latest-price map. -/
structure RiskState where
  engine_state : EngineState
  open_positions : List Position
  portfolio_peak_usd : ℚ
  portfolio_value_usd : ℚ
  latest_prices : List (String × ℚ)
deriving DecidableEq, Repr

/-- `RiskManager::new`: value and peak both start at `initial_portfolio_usd`
and the latest-price map starts empty (manager.rs lines 70-82). -/
def RiskManager.mkState (engine_state : EngineState) (open_positions : List Position)
    (initial_portfolio_usd : ℚ) : RiskState :=
  { engine_state := engine_state, open_positions := open_positions,
    portfolio_peak_usd := initial_portfolio_usd,
    portfolio_value_usd := initial_portfolio_usd,
    latest_prices := [] }

/-- `RiskManager::handle_signal` (manager.rs lines 118-152).  Returns the new
state, the orders sent to the executor channel and the risk events emitted.
`freshId` models the UUID drawn by `Order::market`. -/
def RiskManager.handleSignal (config : RiskConfig) (s : RiskState) (freshId : String)
    (signal : Signal) : RiskState × List Order × List RiskEvent :=
  if s.engine_state = EngineState.Halted then
    (s, [], [RiskEvent.OrderRejected signal RejectionReason.DrawdownHalt])
  else if MAX_OPEN_ORDERS ≤ s.open_positions.length then
    (s, [], [RiskEvent.OrderRejected signal RejectionReason.HardCeilingReached])
  else
    let pair_price : ℚ := (lookupPrice s.latest_prices signal.pair).getD 0
    let notional : ℚ := signal.quantity * pair_price
    if config.max_exposure_per_trade_usd < notional ∧ 0 < pair_price then
      (s, [], [RiskEvent.OrderRejected signal RejectionReason.ExposureLimitExceeded])
    else
      (s, [Order.market freshId signal.pair signal.side signal.quantity], [])

/-- `RiskManager::update_portfolio_value` (manager.rs lines 263-274). -/
def RiskManager.updatePortfolioValue (s : RiskState) (realized_pnl_usd : ℚ) : RiskState :=
  let value := s.portfolio_value_usd + realized_pnl_usd
  { s with
    portfolio_value_usd := value,
    portfolio_peak_usd :=
      if s.portfolio_peak_usd < value then value else s.portfolio_peak_usd }

/-- Signed PnL fraction of a position at a price (manager.rs lines 169-172). -/
def pnlPct (position : Position) (current_price : ℚ) : ℚ :=
  match position.side with
  | OrderSide.Buy => (current_price - position.entry_price) / position.entry_price
  | OrderSide.Sell => (position.entry_price - current_price) / position.entry_price

/-- `OrderSide` flip used when building a closing order (manager.rs line 179). -/
def oppositeSide : OrderSide → OrderSide
  | OrderSide.Buy => OrderSide.Sell
  | OrderSide.Sell => OrderSide.Buy

/-- Body of the per-position loop of `RiskManager::handle_market_event`
(manager.rs lines 163-221), for one snapshot position, after the pair filter:
skip when entry ≤ 0; stop-loss first (close order, removal, realized PnL,
StopLossTriggered), else take-profit (same actions, TakeProfitTriggered),
else nothing. -/
def RiskManager.processPosition (config : RiskConfig) (freshId : String)
    (current_price : ℚ) (s : RiskState) (position : Position) :
    RiskState × List Order × List RiskEvent :=
  if position.entry_price ≤ 0 then (s, [], [])
  else
    let pnl_pct := pnlPct position current_price
    if pnl_pct ≤ -config.stop_loss_pct then
      let close_order :=
        Order.market freshId position.pair (oppositeSide position.side) position.quantity
      let pnl_usd := pnl_pct * position.entry_price * position.quantity
      let s1 := { s with open_positions := removeById s.open_positions position.id }
      let s2 := RiskManager.updatePortfolioValue s1 pnl_usd
      (s2, [close_order], [RiskEvent.StopLossTriggered position.pair current_price])
    else if config.take_profit_pct ≤ pnl_pct then
      let close_order :=
        Order.market freshId position.pair (oppositeSide position.side) position.quantity
      let pnl_usd := pnl_pct * position.entry_price * position.quantity
      let s1 := { s with open_positions := removeById s.open_positions position.id }
      let s2 := RiskManager.updatePortfolioValue s1 pnl_usd
      (s2, [close_order], [RiskEvent.TakeProfitTriggered position.pair current_price])
    else (s, [], [])

/-- Accumulator of the monitoring loop: threaded risk state, the orders and
events emitted so far, and the next index into the fresh-id supply. -/
structure MonitorAcc where
  state : RiskState
  orders : List Order
  events : List RiskEvent
  next : ℕ
deriving Repr

/-- One snapshot position of the monitoring loop, including the
`position.pair != event.pair` skip (manager.rs lines 160-162). -/
def RiskManager.monitorStep (config : RiskConfig) (gen : ℕ → String)
    (eventPair : String) (current_price : ℚ) (acc : MonitorAcc)
    (position : Position) : MonitorAcc :=
  if position.pair = eventPair then
    let out := RiskManager.processPosition config (gen acc.next) current_price acc.state position
    { state := out.1, orders := acc.orders ++ out.2.1, events := acc.events ++ out.2.2,
      next := acc.next + out.2.1.length }
  else acc

/-- `RiskManager::check_drawdown` (manager.rs lines 228-251): skip when
peak ≤ 0; on drawdown ≥ threshold while not already Halted, set Halted and
emit `DrawdownHaltEntered`. -/
def RiskManager.checkDrawdown (config : RiskConfig) (s : RiskState) :
    RiskState × List RiskEvent :=
  if s.portfolio_peak_usd ≤ 0 then (s, [])
  else
    let drawdown := (s.portfolio_peak_usd - s.portfolio_value_usd) / s.portfolio_peak_usd
    if config.max_drawdown_pct ≤ drawdown then
      if s.engine_state = EngineState.Halted then (s, [])
      else
        ({ s with engine_state := EngineState.Halted },
          [RiskEvent.DrawdownHaltEntered drawdown])
    else (s, [])

/-- The monitoring pass of `RiskManager::handle_market_event`: update the
latest-price map, then fold the per-position loop over the snapshot of the
open-positions list. -/
def RiskManager.monitorAll (config : RiskConfig) (gen : ℕ → String) (s : RiskState)
    (event : MarketEvent) : MonitorAcc :=
  let s0 := { s with latest_prices := insertPrice s.latest_prices event.pair event.price }
  s0.open_positions.foldl (RiskManager.monitorStep config gen event.pair event.price)
    { state := s0, orders := [], events := [], next := 0 }

/-- `RiskManager::handle_market_event` (manager.rs lines 154-226): the
monitoring pass followed by the drawdown circuit breaker. -/
def RiskManager.handleMarketEvent (config : RiskConfig) (gen : ℕ → String)
    (s : RiskState) (event : MarketEvent) : RiskState × List Order × List RiskEvent :=
  let acc := RiskManager.monitorAll config gen s event
  let checked := RiskManager.checkDrawdown config acc.state
  (checked.1, acc.orders, acc.events ++ checked.2)

/-- One unit of work of the risk manager's `run` loop (manager.rs lines
86-116): either a signal or a market event, serialized. -/
inductive RiskOp
  | signal (freshId : String) (sig : Signal)
  | market (event : MarketEvent)

/-- State transition of one `RiskOp`. -/
def RiskManager.step (config : RiskConfig) (gen : ℕ → String) (s : RiskState) :
    RiskOp → RiskState
  | RiskOp.signal freshId sig => (RiskManager.handleSignal config s freshId sig).1
  | RiskOp.market event => (RiskManager.handleMarketEvent config gen s event).1

/-- The risk manager's state after a sequence of serialized operations. -/
def RiskManager.runOps (config : RiskConfig) (gen : ℕ → String) (s : RiskState)
    (ops : List RiskOp) : RiskState :=
  ops.foldl (RiskManager.step config gen) s

/-! ### RSI indicator (crates/strategy/src/indicators/rsi.rs) -/

/-- RSI indicator parameters.  `RsiIndicator::new` asserts `period >= 2`. -/
structure RsiIndicator where
  period : ℕ
  overbought : ℚ
  oversold : ℚ
deriving DecidableEq, Repr

/-- The price deltas `closes.windows(2).map(|w| w[1] - w[0])` (rsi.rs line 26),
rendered as the pairwise zip with the tail. -/
def rsiChanges (closes : List ℚ) : List ℚ :=
  (closes.zip closes.tail).map (fun w => w.2 - w.1)

/-- Seed average gain: mean of the positive deltas over the first `period`
samples (rsi.rs line 29). -/
def rsiSeedGain (period : ℕ) (changes : List ℚ) : ℚ :=
  ((changes.take period).filter (fun c => decide (0 < c))).sum / (period : ℚ)

/-- Seed average loss: mean of the absolute negative deltas over the first
`period` samples (rsi.rs lines 30-31). -/
def rsiSeedLoss (period : ℕ) (changes : List ℚ) : ℚ :=
  (((changes.take period).filter (fun c => decide (c < 0))).map (fun c => |c|)).sum
    / (period : ℚ)

/-- One Wilder smoothing update of the (average gain, average loss) pair
(rsi.rs lines 34-39). -/
def wilderStep (period : ℕ) (gl : ℚ × ℚ) (change : ℚ) : ℚ × ℚ :=
  ((gl.1 * ((period - 1 : ℕ) : ℚ) + (if 0 < change then change else 0)) / (period : ℚ),
    (gl.2 * ((period - 1 : ℕ) : ℚ) + (if change < 0 then |change| else 0)) / (period : ℚ))

/-- The smoothed (average gain, average loss) pair after folding the deltas
beyond the seed window through Wilder smoothing. -/
def rsiAverages (period : ℕ) (changes : List ℚ) : ℚ × ℚ :=
  (changes.drop period).foldl (wilderStep period)
    (rsiSeedGain period changes, rsiSeedLoss period changes)

/-- `RsiIndicator::compute` (rsi.rs lines 20-47): `none` below `period + 1`
closes; otherwise seed average gain/loss over the first `period` deltas, apply
Wilder smoothing to the remaining deltas, return 100 when the average loss is
zero and the RS formula otherwise. -/
def RsiIndicator.compute (ind : RsiIndicator) (closes : List ℚ) : Option ℚ :=
  if closes.length < ind.period + 1 then none
  else
    if (rsiAverages ind.period (rsiChanges closes)).2 = 0 then some 100
    else
      some (100 - 100 /
        (1 + (rsiAverages ind.period (rsiChanges closes)).1 /
          (rsiAverages ind.period (rsiChanges closes)).2))

/-! ### Strategy registry (crates/strategy/src/registry.rs) -/

/-- Per-strategy configuration entry (crates/strategy/src/config.rs):
type-specific params are resolved at construction, so only name, pair and
order quantity remain here. -/
structure StrategyConfig where
  name : String
  pair : String
  quantity : ℚ
deriving DecidableEq, Repr

/-- `RsiStrategy::evaluate` (registry.rs lines 182-210): collect closed-candle
prices from the slice it is handed, bail out on an empty collection, then map
the RSI value to a Buy below oversold or a Sell above overbought. -/
def RsiStrategy.evaluate (cfg : StrategyConfig) (ind : RsiIndicator)
    (events : List MarketEvent) : Option Signal :=
  let closed_prices := (events.filter (fun e => e.is_candle_closed)).map (fun e => e.price)
  if closed_prices.isEmpty then none
  else
    match ind.compute closed_prices with
    | none => none
    | some rsi =>
      if rsi ≤ ind.oversold then some (Signal.Buy cfg.pair cfg.quantity)
      else if ind.overbought ≤ rsi then some (Signal.Sell cfg.pair cfg.quantity)
      else none

/-- A boxed `dyn Strategy` trait object: its pair and its evaluate method
over a slice of market events. -/
structure Strategy where
  name : String
  pairName : String
  evaluate : List MarketEvent → Option Signal

/-- Boxing an `RsiStrategy` (registry.rs lines 156-171) as a trait object. -/
def RsiStrategy.make (cfg : StrategyConfig) (ind : RsiIndicator) : Strategy :=
  { name := cfg.name, pairName := cfg.pair, evaluate := RsiStrategy.evaluate cfg ind }

/-- Lookup in the per-pair price-history map. -/
def lookupHistory (m : List (String × List ℚ)) (k : String) : Option (List ℚ) :=
  match m with
  | [] => none
  | (k0, v0) :: rest => if k0 = k then some v0 else lookupHistory rest k

/-- Replacing insert in the per-pair price-history map. -/
def insertHistory (m : List (String × List ℚ)) (k : String) (v : List ℚ) :
    List (String × List ℚ) :=
  match m with
  | [] => [(k, v)]
  | (k0, v0) :: rest => if k0 = k then (k, v) :: rest else (k0, v0) :: insertHistory rest k v

/-- The rolling-history update of `StrategyRegistry::process` (registry.rs
lines 47-56): push the close price, then drop the oldest entry when the
window exceeds `max_history`. -/
def pushHistory (m : List (String × List ℚ)) (pair : String) (price : ℚ)
    (max_history : ℕ) : List (String × List ℚ) :=
  let h := ((lookupHistory m pair).getD []) ++ [price]
  insertHistory m pair (if max_history < h.length then h.drop 1 else h)

/-- `StrategyRegistry` state (registry.rs lines 15-20). -/
structure StrategyRegistry where
  strategies : List Strategy
  price_history : List (String × List ℚ)
  max_history : ℕ

/-- `StrategyRegistry::process` (registry.rs lines 46-77): update the rolling
history on a closed candle, then invoke every strategy whose pair matches the
event's pair on the single-element event slice, collecting returned signals.
The accumulated history is cloned but not passed to `evaluate`. -/
def StrategyRegistry.process (reg : StrategyRegistry) (event : MarketEvent) :
    StrategyRegistry × List Signal :=
  let history' :=
    if event.is_candle_closed then
      pushHistory reg.price_history event.pair event.price reg.max_history
    else reg.price_history
  let signals :=
    (reg.strategies.filter (fun s => s.pairName == event.pair)).filterMap
      (fun s => s.evaluate [event])
  ({ reg with price_history := history' }, signals)

/-! ### Combined core wiring (bin/clawbot/src/main.rs)

In `main.rs` the `RiskManager` is constructed with a freshly allocated shared
open-positions list (line 80) while the `PaperClient` keeps its own internal
ledger (paper/src/lib.rs line 36); the two are never connected, and the
executor persists fills to the database only.  The combined model below wires
the pieces exactly that way: admitted orders flow to the paper backend, the
risk manager's shared list is touched only by its own close path. -/

/-- Combined state of the wired core: risk-manager state (holding the shared
list from main.rs line 80) plus the paper backend's own state. -/
structure CoreState where
  risk : RiskState
  paper : PaperState
deriving Repr

/-- The executor's drain loop (engine/src/executor.rs lines 41-67) applied to
a batch of approved orders: each order is submitted to the exchange backend;
a rejected submission leaves the ledger unchanged (only `OrderFailed` is
emitted, which no verified property inspects). -/
def PaperClient.submitAll (p : PaperState) (orders : List Order) : PaperState :=
  orders.foldl
    (fun st o =>
      match PaperClient.submitOrder st o with
      | Except.ok (_, st') => st'
      | Except.error _ => st) p

/-- One serialized operation of the wired core: a strategy signal processed by
the risk manager with its admitted orders executed by the paper backend, or a
market event (which also refreshes the paper price cache, per the data flow
Market Stream to Paper Backend). -/
inductive CoreOp
  | signal (freshId : String) (sig : Signal)
  | market (event : MarketEvent)

/-- State transition of one `CoreOp`. -/
def Core.step (config : RiskConfig) (gen : ℕ → String) (st : CoreState) :
    CoreOp → CoreState
  | CoreOp.signal freshId sig =>
    match RiskManager.handleSignal config st.risk freshId sig with
    | (s', orders, _) => { risk := s', paper := PaperClient.submitAll st.paper orders }
  | CoreOp.market event =>
    match RiskManager.handleMarketEvent config gen st.risk event with
    | (s', orders, _) =>
      { risk := s',
        paper := PaperClient.submitAll
          (PaperClient.updatePrice st.paper event.pair event.price) orders }

/-- The wired core after a sequence of serialized operations. -/
def Core.runOps (config : RiskConfig) (gen : ℕ → String) (st : CoreState)
    (ops : List CoreOp) : CoreState :=
  ops.foldl (Core.step config gen) st

/-- Initial wired core used to exercise the open-positions bound: engine
Running, risk list empty, portfolio at 10000, paper ledger empty with a
price of 1 cached for BTCUSDT and zero slippage. -/
def Core.seedState : CoreState :=
  { risk := RiskManager.mkState EngineState.Running [] 10000,
    paper := { positions := [], prices := [("BTCUSDT", 1)], slippage_bps := 0 } }

/-! ## Theorems -/

/-- Claim C4, counterexample: the claimed transition relation ("Start moves
Stopped to Running ... every other (state, command) pair leaves the state
unchanged") fails on the code at (Paused, Start): `Engine::run` re-enters
Running from Paused on a Start command, while the claimed relation keeps
Paused. -/
theorem engine_step_counterexample :
    Engine.step EngineState.Paused EngineCommand.Start = EngineState.Running
    ∧ Engine.claimedStep EngineState.Paused EngineCommand.Start = EngineState.Paused
    ∧ Engine.step EngineState.Paused EngineCommand.Start ≠
        Engine.claimedStep EngineState.Paused EngineCommand.Start := by
  decide

/-- Claim C4, amended: the command handling of `Engine::run` realises exactly
this relation: Start moves every state to Running (already-Running is a logged
no-op that stays Running); Stop moves every state, including Halted and
Stopped, to Stopped; Pause moves only Running to Paused; Resume moves only
Paused to Running; ResetDrawdown moves only Halted to Running; every remaining
(state, command) pair leaves the state unchanged. -/
theorem engine_step_characterization :
    ∀ (s : EngineState) (c : EngineCommand),
      Engine.step s c =
        match c with
        | EngineCommand.Start => EngineState.Running
        | EngineCommand.Stop => EngineState.Stopped
        | EngineCommand.Pause =>
            if s = EngineState.Running then EngineState.Paused else s
        | EngineCommand.Resume =>
            if s = EngineState.Paused then EngineState.Running else s
        | EngineCommand.ResetDrawdown =>
            if s = EngineState.Halted then EngineState.Running else s := by
  intro s c
  cases s <;> cases c <;> rfl

/-- Helper for the open-positions bound: from any core state whose risk half
looks like the seed (Running, empty shared list, no latest price) and whose
paper half has 1 cached for BTCUSDT, one Buy signal is admitted and lands one
more position in the paper ledger, leaving the risk half unchanged. -/
theorem seed_signal_step (st : CoreState)
    (h1 : st.risk.engine_state = EngineState.Running)
    (h2 : st.risk.open_positions = [])
    (h3 : st.risk.latest_prices = [])
    (h4 : st.paper.prices = [("BTCUSDT", 1)]) :
    (Core.step RiskConfig.default (fun _ => "c") st
        (CoreOp.signal "o" (Signal.Buy "BTCUSDT" 1))).risk = st.risk
    ∧ (Core.step RiskConfig.default (fun _ => "c") st
        (CoreOp.signal "o" (Signal.Buy "BTCUSDT" 1))).paper.prices = st.paper.prices
    ∧ (Core.step RiskConfig.default (fun _ => "c") st
        (CoreOp.signal "o" (Signal.Buy "BTCUSDT" 1))).paper.positions.length =
      st.paper.positions.length + 1 := by
  have hsig : RiskManager.handleSignal RiskConfig.default st.risk "o"
      (Signal.Buy "BTCUSDT" 1) =
      (st.risk, [Order.market "o" "BTCUSDT" OrderSide.Buy 1], []) := by
    unfold RiskManager.handleSignal
    rw [h1, h2, h3]
    norm_num [Signal.pair, Signal.quantity, Signal.side, lookupPrice,
      RiskConfig.default, MAX_OPEN_ORDERS]
    decide
  have hsub : PaperClient.submitOrder st.paper (Order.market "o" "BTCUSDT" OrderSide.Buy 1) =
      Except.ok
        ({ order_id := "o", pair := "BTCUSDT", side := OrderSide.Buy,
           fill_price := 1 * (1 + st.paper.slippage_bps / 10000), quantity := 1 },
          { st.paper with positions := st.paper.positions ++
            [{ id := "o", pair := "BTCUSDT", side := OrderSide.Buy,
               entry_price := 1 * (1 + st.paper.slippage_bps / 10000), quantity := 1,
               mode := TradingMode.Paper }] }) := by
    unfold PaperClient.submitOrder
    rw [Order.market]
    simp [h4, lookupPrice]
  simp [Core.step, hsig, PaperClient.submitAll, hsub]

/-- Claim C5: the bound |open positions| ≤ MAX_OPEN_ORDERS = 5 is violated by
the wired core.  The risk manager's hard-ceiling check reads the shared list
allocated in main.rs line 80, which no fill ever populates, while the paper
backend's ledger insertions (paper/src/lib.rs lines 92-101) are unguarded:
six admitted Buy signals leave six open positions in the paper ledger. -/
theorem open_positions_bound_violated :
    MAX_OPEN_ORDERS = 5
    ∧ (Core.runOps RiskConfig.default (fun _ => "c") Core.seedState
        (List.replicate 6 (CoreOp.signal "o" (Signal.Buy "BTCUSDT" 1)))
        ).paper.positions.length = 6 := by
  refine ⟨rfl, ?_⟩
  have key : ∀ (n : ℕ) (st : CoreState),
      st.risk.engine_state = EngineState.Running →
      st.risk.open_positions = [] →
      st.risk.latest_prices = [] →
      st.paper.prices = [("BTCUSDT", 1)] →
      (Core.runOps RiskConfig.default (fun _ => "c") st
          (List.replicate n (CoreOp.signal "o" (Signal.Buy "BTCUSDT" 1)))
          ).paper.positions.length = st.paper.positions.length + n := by
    intro n
    induction n with
    | zero => intro st _ _ _ _; simp [Core.runOps]
    | succ k ih =>
      intro st h1 h2 h3 h4
      have hstep := seed_signal_step st h1 h2 h3 h4
      have hrun : Core.runOps RiskConfig.default (fun _ => "c") st
          (List.replicate (k + 1) (CoreOp.signal "o" (Signal.Buy "BTCUSDT" 1))) =
          Core.runOps RiskConfig.default (fun _ => "c")
            (Core.step RiskConfig.default (fun _ => "c") st
              (CoreOp.signal "o" (Signal.Buy "BTCUSDT" 1)))
            (List.replicate k (CoreOp.signal "o" (Signal.Buy "BTCUSDT" 1))) := by
        simp [Core.runOps, List.replicate]
      rw [hrun, ih _ (by rw [hstep.1, h1]) (by rw [hstep.1, h2]) (by rw [hstep.1, h3])
        (by rw [hstep.2.1, h4]), hstep.2.2]
      omega
  have h := key 6 Core.seedState rfl rfl rfl rfl
  simpa [Core.seedState] using h

/-- Claim C8: `PaperClient::submit_order` fails with an Exchange error exactly
when no price is cached for the order's pair — the position ledger plays no
part in the decision, so a Sell with no matching open position still
succeeds — and on success the Fill carries the order's id, pair, side and
quantity, with fill price mid·(1 + bps/10000) for a Buy and
mid·(1 − bps/10000) for a Sell. -/
theorem paper_submit_order_spec (c : PaperState) (order : Order) :
    (lookupPrice c.prices order.pair = none →
      ∃ msg, PaperClient.submitOrder c order =
        Except.error (ExchangeError.Exchange msg))
    ∧ (∀ mid, lookupPrice c.prices order.pair = some mid →
        ∃ c', PaperClient.submitOrder c order =
          Except.ok
            ({ order_id := order.id, pair := order.pair, side := order.side,
               fill_price :=
                 match order.side with
                 | OrderSide.Buy => mid * (1 + c.slippage_bps / 10000)
                 | OrderSide.Sell => mid * (1 - c.slippage_bps / 10000),
               quantity := order.quantity }, c')) := by
  constructor
  · intro h
    refine ⟨"PaperClient has no price for pair " ++ order.pair, ?_⟩
    simp [PaperClient.submitOrder, h]
  · intro mid h
    cases hside : order.side with
    | Buy =>
      refine ⟨{ c with positions := c.positions ++
          [{ id := order.id, pair := order.pair, side := OrderSide.Buy,
             entry_price := mid * (1 + c.slippage_bps / 10000),
             quantity := order.quantity, mode := TradingMode.Paper }] }, ?_⟩
      simp [PaperClient.submitOrder, h, hside]
    | Sell =>
      refine ⟨{ c with positions := removeFirstByPair c.positions order.pair }, ?_⟩
      simp [PaperClient.submitOrder, h, hside]

/-- Witness for C8 at a concrete input: with 500 cached for ETHUSDT and
10 bps slippage, a Buy of quantity 1 succeeds and fills at 500·(1 + 10/10000). -/
theorem paper_submit_order_spec_witness :
    ∃ c', PaperClient.submitOrder
        { positions := [], prices := [("ETHUSDT", 500)], slippage_bps := 10 }
        (Order.market "o1" "ETHUSDT" OrderSide.Buy 1) =
      Except.ok
        ({ order_id := "o1", pair := "ETHUSDT", side := OrderSide.Buy,
           fill_price := 500 * (1 + (10 : ℚ) / 10000), quantity := 1 }, c') := by
  exact (paper_submit_order_spec
      { positions := [], prices := [("ETHUSDT", 500)], slippage_bps := 10 }
      (Order.market "o1" "ETHUSDT" OrderSide.Buy 1)).2 500 (by decide)

/-- Claim C9: from an empty paper ledger with a price cached for the pair, a
Buy `submit_order` followed by a Sell `submit_order` on the same pair — of any
quantities — leaves the ledger empty: the Buy appends one position and the
Sell removes the earliest-indexed position matching the pair irrespective of
quantity. -/
theorem paper_buy_sell_round_trip (prices : List (String × ℚ)) (slippage : ℚ)
    (p id1 id2 : String) (q1 q2 : ℚ) (mid : ℚ)
    (h : lookupPrice prices p = some mid) :
    ∃ f1 st1 f2 st2,
      PaperClient.submitOrder
          { positions := [], prices := prices, slippage_bps := slippage }
          (Order.market id1 p OrderSide.Buy q1) = Except.ok (f1, st1)
      ∧ st1.positions.length = 1
      ∧ PaperClient.submitOrder st1 (Order.market id2 p OrderSide.Sell q2) =
          Except.ok (f2, st2)
      ∧ st2.positions = [] := by
  refine ⟨{ order_id := id1, pair := p, side := OrderSide.Buy,
            fill_price := mid * (1 + slippage / 10000), quantity := q1 },
          { positions := [{ id := id1, pair := p, side := OrderSide.Buy,
                            entry_price := mid * (1 + slippage / 10000), quantity := q1,
                            mode := TradingMode.Paper }],
            prices := prices, slippage_bps := slippage },
          { order_id := id2, pair := p, side := OrderSide.Sell,
            fill_price := mid * (1 - slippage / 10000), quantity := q2 },
          { positions := [], prices := prices, slippage_bps := slippage },
          ?_, rfl, ?_, rfl⟩
  · simp [PaperClient.submitOrder, Order.market, h]
  · simp [PaperClient.submitOrder, Order.market, h, removeFirstByPair]

/-- Witness for C9 at a concrete input: ETHUSDT cached at 500, Buy 1 then
Sell 2 rounds the ledger back to empty. -/
theorem paper_buy_sell_round_trip_witness :
    ∃ f1 st1 f2 st2,
      PaperClient.submitOrder
          { positions := [], prices := [("ETHUSDT", 500)], slippage_bps := 10 }
          (Order.market "b" "ETHUSDT" OrderSide.Buy 1) = Except.ok (f1, st1)
      ∧ st1.positions.length = 1
      ∧ PaperClient.submitOrder st1 (Order.market "s" "ETHUSDT" OrderSide.Sell 2) =
          Except.ok (f2, st2)
      ∧ st2.positions = [] := by
  exact paper_buy_sell_round_trip [("ETHUSDT", 500)] 10 "ETHUSDT" "b" "s" 1 2 500 (by decide)

/-- Claim C1: the signal admission pipeline of `RiskManager::handle_signal`
applies its rules in order and stops at the first failure — Halted rejects
with DrawdownHalt; a full open-positions list rejects with HardCeilingReached;
a known positive latest price with notional above the exposure cap rejects
with ExposureLimitExceeded; otherwise (including an unknown latest price) the
signal is admitted and exactly one market order with the same pair, side and
quantity is forwarded.  Every rejection emits OrderRejected and forwards no
order. -/
theorem risk_admission_pipeline (config : RiskConfig) (s : RiskState)
    (freshId : String) (signal : Signal) :
    (s.engine_state = EngineState.Halted →
      RiskManager.handleSignal config s freshId signal =
        (s, [], [RiskEvent.OrderRejected signal RejectionReason.DrawdownHalt]))
    ∧ (s.engine_state ≠ EngineState.Halted →
        MAX_OPEN_ORDERS ≤ s.open_positions.length →
        RiskManager.handleSignal config s freshId signal =
          (s, [], [RiskEvent.OrderRejected signal RejectionReason.HardCeilingReached]))
    ∧ (s.engine_state ≠ EngineState.Halted →
        s.open_positions.length < MAX_OPEN_ORDERS →
        0 < (lookupPrice s.latest_prices signal.pair).getD 0 →
        config.max_exposure_per_trade_usd <
          signal.quantity * (lookupPrice s.latest_prices signal.pair).getD 0 →
        RiskManager.handleSignal config s freshId signal =
          (s, [], [RiskEvent.OrderRejected signal RejectionReason.ExposureLimitExceeded]))
    ∧ (s.engine_state ≠ EngineState.Halted →
        s.open_positions.length < MAX_OPEN_ORDERS →
        ¬(config.max_exposure_per_trade_usd <
            signal.quantity * (lookupPrice s.latest_prices signal.pair).getD 0
          ∧ 0 < (lookupPrice s.latest_prices signal.pair).getD 0) →
        RiskManager.handleSignal config s freshId signal =
          (s, [Order.market freshId signal.pair signal.side signal.quantity], [])) := by
  refine ⟨?_, ?_, ?_, ?_⟩
  · intro h
    unfold RiskManager.handleSignal
    rw [if_pos h]
  · intro h hlen
    unfold RiskManager.handleSignal
    rw [if_neg h, if_pos hlen]
  · intro h hlen hpos hexp
    unfold RiskManager.handleSignal
    rw [if_neg h, if_neg (Nat.not_le.mpr hlen)]
    dsimp only
    rw [if_pos ⟨hexp, hpos⟩]
  · intro h hlen hcond
    unfold RiskManager.handleSignal
    rw [if_neg h, if_neg (Nat.not_le.mpr hlen)]
    dsimp only
    rw [if_neg hcond]

/-- Witness for C1 at a concrete input: engine Running, no open positions, no
latest price cached — a Buy signal for 0.01 BTCUSDT is admitted and exactly
one market order with the same pair, side and quantity is forwarded. -/
theorem risk_admission_pipeline_witness :
    RiskManager.handleSignal RiskConfig.default
        (RiskManager.mkState EngineState.Running [] 10000) "w1"
        (Signal.Buy "BTCUSDT" (1/100)) =
      (RiskManager.mkState EngineState.Running [] 10000,
        [Order.market "w1" "BTCUSDT" OrderSide.Buy (1/100)], []) := by
  exact (risk_admission_pipeline RiskConfig.default
      (RiskManager.mkState EngineState.Running [] 10000) "w1"
      (Signal.Buy "BTCUSDT" (1/100))).2.2.2 (by decide) (by decide)
    (by norm_num [RiskManager.mkState, lookupPrice, Signal.pair, Signal.quantity])

/-- Claim C3: the drawdown circuit breaker `RiskManager::check_drawdown` —
run at the end of every processed market event — halts the engine and emits
exactly one DrawdownHaltEntered carrying the computed drawdown when the peak
is positive, the drawdown reaches the threshold and the engine is not yet
Halted; in every other case it changes nothing and emits nothing. -/
theorem drawdown_circuit_breaker (config : RiskConfig) (s : RiskState) :
    (0 < s.portfolio_peak_usd →
      config.max_drawdown_pct ≤
        (s.portfolio_peak_usd - s.portfolio_value_usd) / s.portfolio_peak_usd →
      s.engine_state ≠ EngineState.Halted →
      RiskManager.checkDrawdown config s =
        ({ s with engine_state := EngineState.Halted },
          [RiskEvent.DrawdownHaltEntered
            ((s.portfolio_peak_usd - s.portfolio_value_usd) / s.portfolio_peak_usd)]))
    ∧ (s.portfolio_peak_usd ≤ 0 ∨
        (s.portfolio_peak_usd - s.portfolio_value_usd) / s.portfolio_peak_usd <
          config.max_drawdown_pct ∨
        s.engine_state = EngineState.Halted →
      RiskManager.checkDrawdown config s = (s, []))
    ∧ (∀ (gen : ℕ → String) (event : MarketEvent),
        RiskManager.handleMarketEvent config gen s event =
          ((RiskManager.checkDrawdown config
              (RiskManager.monitorAll config gen s event).state).1,
            (RiskManager.monitorAll config gen s event).orders,
            (RiskManager.monitorAll config gen s event).events ++
              (RiskManager.checkDrawdown config
                (RiskManager.monitorAll config gen s event).state).2)) := by
  refine ⟨?_, ?_, ?_⟩
  · intro hpk hdd hst
    unfold RiskManager.checkDrawdown
    rw [if_neg (not_le.mpr hpk)]
    dsimp only
    rw [if_pos hdd, if_neg hst]
  · intro hcase
    unfold RiskManager.checkDrawdown
    by_cases hp : s.portfolio_peak_usd ≤ 0
    · rw [if_pos hp]
    · rw [if_neg hp]
      dsimp only
      rcases hcase with h | h | h
      · exact absurd h hp
      · rw [if_neg (not_le.mpr h)]
      · by_cases hdd : config.max_drawdown_pct ≤
            (s.portfolio_peak_usd - s.portfolio_value_usd) / s.portfolio_peak_usd
        · rw [if_pos hdd, if_pos h]
        · rw [if_neg hdd]
  · intro gen event
    rfl

/-- Witness for C3 at a concrete input: peak 10000, value 9000, engine
Running, drawdown 1/10 reaches the default 10% threshold, so the state halts
and exactly one DrawdownHaltEntered with drawdown 1/10 is emitted. -/
theorem drawdown_circuit_breaker_witness :
    RiskManager.checkDrawdown RiskConfig.default
        { engine_state := EngineState.Running, open_positions := [],
          portfolio_peak_usd := 10000, portfolio_value_usd := 9000,
          latest_prices := [] } =
      ({ engine_state := EngineState.Halted, open_positions := [],
         portfolio_peak_usd := 10000, portfolio_value_usd := 9000,
         latest_prices := [] },
        [RiskEvent.DrawdownHaltEntered (((10000 : ℚ) - 9000) / 10000)]) := by
  exact (drawdown_circuit_breaker RiskConfig.default
      { engine_state := EngineState.Running, open_positions := [],
        portfolio_peak_usd := 10000, portfolio_value_usd := 9000,
        latest_prices := [] }).1
    (by norm_num) (by norm_num [RiskConfig.default]) (by decide)

/-- Every branch of `handle_signal` returns the incoming state unchanged. -/
theorem handleSignal_state_unchanged (config : RiskConfig) (s : RiskState)
    (freshId : String) (signal : Signal) :
    (RiskManager.handleSignal config s freshId signal).1 = s := by
  unfold RiskManager.handleSignal
  dsimp only
  split_ifs <;> rfl

/-- `update_portfolio_value` never lowers the peak. -/
theorem updatePortfolioValue_peak_le (s : RiskState) (pnl : ℚ) :
    s.portfolio_peak_usd ≤
      (RiskManager.updatePortfolioValue s pnl).portfolio_peak_usd := by
  unfold RiskManager.updatePortfolioValue
  dsimp only
  split_ifs with h
  · exact le_of_lt h
  · exact le_refl _

/-- The per-position close path never lowers the peak. -/
theorem processPosition_peak_le (config : RiskConfig) (freshId : String)
    (price : ℚ) (s : RiskState) (position : Position) :
    s.portfolio_peak_usd ≤
      (RiskManager.processPosition config freshId price s position).1.portfolio_peak_usd := by
  unfold RiskManager.processPosition
  dsimp only
  split_ifs
  · exact le_refl _
  · exact updatePortfolioValue_peak_le _ _
  · exact updatePortfolioValue_peak_le _ _
  · exact le_refl _

/-- One step of the monitoring loop never lowers the peak. -/
theorem monitorStep_peak_le (config : RiskConfig) (gen : ℕ → String)
    (eventPair : String) (price : ℚ) (acc : MonitorAcc) (position : Position) :
    acc.state.portfolio_peak_usd ≤
      (RiskManager.monitorStep config gen eventPair price acc position
        ).state.portfolio_peak_usd := by
  unfold RiskManager.monitorStep
  dsimp only
  split_ifs
  · exact processPosition_peak_le _ _ _ _ _
  · exact le_refl _

/-- The folded monitoring loop never lowers the peak. -/
theorem foldl_monitor_peak_le (config : RiskConfig) (gen : ℕ → String)
    (eventPair : String) (price : ℚ) :
    ∀ (l : List Position) (acc : MonitorAcc),
      acc.state.portfolio_peak_usd ≤
        (l.foldl (RiskManager.monitorStep config gen eventPair price) acc
          ).state.portfolio_peak_usd
  | [], _ => le_refl _
  | p :: rest, acc =>
    le_trans (monitorStep_peak_le config gen eventPair price acc p)
      (foldl_monitor_peak_le config gen eventPair price rest _)

/-- The drawdown breaker never changes the peak. -/
theorem checkDrawdown_peak_eq (config : RiskConfig) (s : RiskState) :
    (RiskManager.checkDrawdown config s).1.portfolio_peak_usd =
      s.portfolio_peak_usd := by
  unfold RiskManager.checkDrawdown
  dsimp only
  split_ifs <;> rfl

/-- Processing a market event never lowers the peak. -/
theorem handleMarketEvent_peak_le (config : RiskConfig) (gen : ℕ → String)
    (s : RiskState) (event : MarketEvent) :
    s.portfolio_peak_usd ≤
      (RiskManager.handleMarketEvent config gen s event).1.portfolio_peak_usd := by
  unfold RiskManager.handleMarketEvent
  dsimp only
  rw [checkDrawdown_peak_eq]
  unfold RiskManager.monitorAll
  dsimp only
  exact foldl_monitor_peak_le config gen event.pair event.price _ _

/-- Neither kind of risk-manager operation lowers the peak. -/
theorem riskStep_peak_le (config : RiskConfig) (gen : ℕ → String)
    (s : RiskState) (op : RiskOp) :
    s.portfolio_peak_usd ≤ (RiskManager.step config gen s op).portfolio_peak_usd := by
  cases op with
  | signal freshId sig =>
    rw [RiskManager.step, handleSignal_state_unchanged]
  | market event =>
    exact handleMarketEvent_peak_le config gen s event

/-- The peak is monotone along any sequence of serialized operations. -/
theorem runOps_peak_le (config : RiskConfig) (gen : ℕ → String) :
    ∀ (ops : List RiskOp) (s : RiskState),
      s.portfolio_peak_usd ≤
        (RiskManager.runOps config gen s ops).portfolio_peak_usd
  | [], _ => le_refl _
  | op :: rest, s =>
    le_trans (riskStep_peak_le config gen s op)
      (runOps_peak_le config gen rest _)

/-- Claim C7: the portfolio peak starts equal to `initial_portfolio_usd`, is
raised to the portfolio value exactly when the value exceeds the current peak
after a realized PnL update, and no sequence of risk-manager operations ever
lowers it. -/
theorem portfolio_peak_monotone :
    (∀ (es : EngineState) (ps : List Position) (init : ℚ),
      (RiskManager.mkState es ps init).portfolio_peak_usd = init
      ∧ (RiskManager.mkState es ps init).portfolio_value_usd = init)
    ∧ (∀ (s : RiskState) (pnl : ℚ),
        (RiskManager.updatePortfolioValue s pnl).portfolio_value_usd =
          s.portfolio_value_usd + pnl
        ∧ (RiskManager.updatePortfolioValue s pnl).portfolio_peak_usd =
            (if s.portfolio_peak_usd < s.portfolio_value_usd + pnl
              then s.portfolio_value_usd + pnl else s.portfolio_peak_usd))
    ∧ (∀ (config : RiskConfig) (gen : ℕ → String) (s : RiskState)
        (ops : List RiskOp),
        s.portfolio_peak_usd ≤
          (RiskManager.runOps config gen s ops).portfolio_peak_usd) :=
  ⟨fun _ _ _ => ⟨rfl, rfl⟩, fun _ _ => ⟨rfl, rfl⟩,
    fun config gen s ops => runOps_peak_le config gen ops s⟩

/-- Claim C2: for a position on the event's pair with positive entry price,
the monitoring loop closes it with a market order of the opposite side and
the same quantity, removes it from the shared list, changes the portfolio
value by pnl·entry·quantity and emits StopLossTriggered with the event price
when pnl ≤ −stop_loss_pct; does the same with TakeProfitTriggered when the
stop-loss did not fire and pnl ≥ take_profit_pct; and leaves everything
unchanged when neither threshold is reached.  Stop-loss takes precedence:
its case carries no take-profit exclusion.  Positions on other pairs are
skipped untouched. -/
theorem risk_position_monitoring (config : RiskConfig) (freshId : String)
    (current_price : ℚ) (s : RiskState) (position : Position)
    (hentry : 0 < position.entry_price) :
    (pnlPct position current_price ≤ -config.stop_loss_pct →
      RiskManager.processPosition config freshId current_price s position =
        (RiskManager.updatePortfolioValue
            { s with open_positions := removeById s.open_positions position.id }
            (pnlPct position current_price * position.entry_price * position.quantity),
          [Order.market freshId position.pair (oppositeSide position.side)
            position.quantity],
          [RiskEvent.StopLossTriggered position.pair current_price]))
    ∧ (¬pnlPct position current_price ≤ -config.stop_loss_pct →
        config.take_profit_pct ≤ pnlPct position current_price →
        RiskManager.processPosition config freshId current_price s position =
          (RiskManager.updatePortfolioValue
              { s with open_positions := removeById s.open_positions position.id }
              (pnlPct position current_price * position.entry_price * position.quantity),
            [Order.market freshId position.pair (oppositeSide position.side)
              position.quantity],
            [RiskEvent.TakeProfitTriggered position.pair current_price]))
    ∧ (¬pnlPct position current_price ≤ -config.stop_loss_pct →
        ¬config.take_profit_pct ≤ pnlPct position current_price →
        RiskManager.processPosition config freshId current_price s position =
          (s, [], []))
    ∧ ((RiskManager.updatePortfolioValue
          { s with open_positions := removeById s.open_positions position.id }
          (pnlPct position current_price * position.entry_price * position.quantity)
          ).portfolio_value_usd =
        s.portfolio_value_usd +
          pnlPct position current_price * position.entry_price * position.quantity)
    ∧ (∀ (gen : ℕ → String) (eventPair : String) (p : ℚ) (acc : MonitorAcc),
        position.pair ≠ eventPair →
        RiskManager.monitorStep config gen eventPair p acc position = acc) := by
  have hne : ¬position.entry_price ≤ 0 := not_le.mpr hentry
  refine ⟨?_, ?_, ?_, rfl, ?_⟩
  · intro hsl
    unfold RiskManager.processPosition
    rw [if_neg hne]
    dsimp only
    rw [if_pos hsl]
  · intro hnsl htp
    unfold RiskManager.processPosition
    rw [if_neg hne]
    dsimp only
    rw [if_neg hnsl, if_pos htp]
  · intro hnsl hntp
    unfold RiskManager.processPosition
    rw [if_neg hne]
    dsimp only
    rw [if_neg hnsl, if_neg hntp]
  · intro gen eventPair p acc hpair
    unfold RiskManager.monitorStep
    rw [if_neg hpair]

/-- Witness for C2 at a concrete input: a Buy position entered at 1000 with
quantity 0.01 sees price 980, a 2% loss at the default stop-loss threshold;
the loop emits a Sell close of quantity 0.01, removes the position and books
a 0.2 USD realized loss. -/
theorem risk_position_monitoring_witness :
    RiskManager.processPosition RiskConfig.default "w2" 980
        (RiskManager.mkState EngineState.Running
          [{ id := "p1", pair := "BTCUSDT", side := OrderSide.Buy,
             entry_price := 1000, quantity := 1/100, mode := TradingMode.Paper }]
          10000)
        { id := "p1", pair := "BTCUSDT", side := OrderSide.Buy,
          entry_price := 1000, quantity := 1/100, mode := TradingMode.Paper } =
      ({ engine_state := EngineState.Running, open_positions := [],
         portfolio_peak_usd := 10000, portfolio_value_usd := 49999/5,
         latest_prices := [] },
        [Order.market "w2" "BTCUSDT" OrderSide.Sell (1/100)],
        [RiskEvent.StopLossTriggered "BTCUSDT" 980]) := by
  have h := (risk_position_monitoring RiskConfig.default "w2" 980
      (RiskManager.mkState EngineState.Running
        [{ id := "p1", pair := "BTCUSDT", side := OrderSide.Buy,
           entry_price := 1000, quantity := 1/100, mode := TradingMode.Paper }]
        10000)
      { id := "p1", pair := "BTCUSDT", side := OrderSide.Buy,
        entry_price := 1000, quantity := 1/100, mode := TradingMode.Paper }
      (by norm_num)).1
    (by norm_num [pnlPct, RiskConfig.default])
  rw [h]
  norm_num [RiskManager.updatePortfolioValue, RiskManager.mkState, removeById,
    pnlPct, oppositeSide]

/-- RSI returns none below period + 1 closes. -/
theorem compute_eq_none_of_lt (ind : RsiIndicator) (closes : List ℚ)
    (h : closes.length < ind.period + 1) : ind.compute closes = none := by
  unfold RsiIndicator.compute
  rw [if_pos h]

/-- RSI returns a value at period + 1 closes or more. -/
theorem compute_isSome_of_ge (ind : RsiIndicator) (closes : List ℚ)
    (h : ¬closes.length < ind.period + 1) : (ind.compute closes).isSome := by
  unfold RsiIndicator.compute
  rw [if_neg h]
  split_ifs <;> rfl

/-- The seed average gain is nonnegative: it is a mean of positive deltas. -/
theorem rsiSeedGain_nonneg (period : ℕ) (changes : List ℚ) :
    0 ≤ rsiSeedGain period changes := by
  unfold rsiSeedGain
  apply div_nonneg _ (Nat.cast_nonneg _)
  apply List.sum_nonneg
  intro x hx
  exact le_of_lt (of_decide_eq_true (List.mem_filter.mp hx).2)

/-- The seed average loss is nonnegative: it is a mean of absolute values. -/
theorem rsiSeedLoss_nonneg (period : ℕ) (changes : List ℚ) :
    0 ≤ rsiSeedLoss period changes := by
  unfold rsiSeedLoss
  apply div_nonneg _ (Nat.cast_nonneg _)
  apply List.sum_nonneg
  intro x hx
  obtain ⟨c, _, rfl⟩ := List.mem_map.mp hx
  exact abs_nonneg c

/-- One Wilder update keeps both running averages nonnegative. -/
theorem wilderStep_nonneg (period : ℕ) (gl : ℚ × ℚ) (change : ℚ)
    (hg : 0 ≤ gl.1) (hl : 0 ≤ gl.2) :
    0 ≤ (wilderStep period gl change).1 ∧ 0 ≤ (wilderStep period gl change).2 := by
  unfold wilderStep
  constructor
  · apply div_nonneg _ (Nat.cast_nonneg _)
    apply add_nonneg (mul_nonneg hg (Nat.cast_nonneg _))
    split_ifs with h
    · exact le_of_lt h
    · exact le_refl 0
  · apply div_nonneg _ (Nat.cast_nonneg _)
    apply add_nonneg (mul_nonneg hl (Nat.cast_nonneg _))
    split_ifs with h
    · exact abs_nonneg _
    · exact le_refl 0

/-- The folded Wilder smoothing keeps both running averages nonnegative. -/
theorem foldl_wilder_nonneg (period : ℕ) :
    ∀ (l : List ℚ) (gl : ℚ × ℚ), 0 ≤ gl.1 → 0 ≤ gl.2 →
      0 ≤ (l.foldl (wilderStep period) gl).1
      ∧ 0 ≤ (l.foldl (wilderStep period) gl).2
  | [], _, hg, hl => ⟨hg, hl⟩
  | c :: rest, gl, hg, hl =>
    foldl_wilder_nonneg period rest (wilderStep period gl c)
      (wilderStep_nonneg period gl c hg hl).1
      (wilderStep_nonneg period gl c hg hl).2

/-- Both components of the smoothed average pair are nonnegative. -/
theorem rsiAverages_nonneg (period : ℕ) (changes : List ℚ) :
    0 ≤ (rsiAverages period changes).1 ∧ 0 ≤ (rsiAverages period changes).2 :=
  foldl_wilder_nonneg period _ _ (rsiSeedGain_nonneg period changes)
    (rsiSeedLoss_nonneg period changes)

/-- Claim C10: `RsiIndicator::compute` returns "insufficient data" exactly
when the slice holds fewer than period + 1 prices, and every value it does
return lies in the closed interval [0, 100]. -/
theorem rsi_compute_spec (ind : RsiIndicator) (closes : List ℚ)
    (_hp : 2 ≤ ind.period) :
    (ind.compute closes = none ↔ closes.length < ind.period + 1)
    ∧ (∀ v, ind.compute closes = some v → 0 ≤ v ∧ v ≤ 100) := by
  constructor
  · constructor
    · intro hnone
      by_contra hlen
      have hs := compute_isSome_of_ge ind closes hlen
      rw [hnone] at hs
      simp at hs
    · exact compute_eq_none_of_lt ind closes
  · intro v hv
    by_cases hlen : closes.length < ind.period + 1
    · rw [compute_eq_none_of_lt ind closes hlen] at hv
      exact absurd hv (by simp)
    · unfold RsiIndicator.compute at hv
      rw [if_neg hlen] at hv
      have hnn := rsiAverages_nonneg ind.period (rsiChanges closes)
      by_cases h0 : (rsiAverages ind.period (rsiChanges closes)).2 = 0
      · rw [if_pos h0] at hv
        have h100 := (Option.some.inj hv).symm
        subst h100
        norm_num
      · rw [if_neg h0] at hv
        have hv' := (Option.some.inj hv).symm
        have hl : 0 < (rsiAverages ind.period (rsiChanges closes)).2 :=
          lt_of_le_of_ne hnn.2 (Ne.symm h0)
        have hrs : 0 ≤ (rsiAverages ind.period (rsiChanges closes)).1 /
            (rsiAverages ind.period (rsiChanges closes)).2 :=
          div_nonneg hnn.1 (le_of_lt hl)
        have hdle : 100 / (1 + (rsiAverages ind.period (rsiChanges closes)).1 /
            (rsiAverages ind.period (rsiChanges closes)).2) ≤ 100 :=
          div_le_self (by norm_num) (by linarith)
        have hdpos : 0 < 100 / (1 + (rsiAverages ind.period (rsiChanges closes)).1 /
            (rsiAverages ind.period (rsiChanges closes)).2) :=
          div_pos (by norm_num) (by linarith)
        rw [hv']
        constructor
        · linarith
        · linarith

/-- Witness for C10 at concrete inputs: with period 2, the two-price slice
[1, 2] is insufficient, and the three-price strictly increasing slice
[1, 2, 3] yields RSI 100, which lies in [0, 100]. -/
theorem rsi_compute_spec_witness :
    (RsiIndicator.compute { period := 2, overbought := 70, oversold := 30 } [1, 2] = none
      ↔ ([1, 2] : List ℚ).length < 2 + 1)
    ∧ (0 ≤ (100 : ℚ) ∧ (100 : ℚ) ≤ 100) := by
  constructor
  · exact (rsi_compute_spec { period := 2, overbought := 70, oversold := 30 }
      [1, 2] (by norm_num)).1
  · refine (rsi_compute_spec { period := 2, overbought := 70, oversold := 30 }
      [1, 2, 3] (by norm_num)).2 100 ?_
    norm_num [RsiIndicator.compute, rsiAverages, rsiChanges, rsiSeedGain,
      rsiSeedLoss, wilderStep, List.zip, List.zipWith, List.filter]

/-- Claim C6: `StrategyRegistry::process` hands every matching strategy a
slice holding only the current event (the rolling history is maintained but
never passed), so an RSI strategy with the constructor-enforced period ≥ 2 —
needing at least period + 1 ≥ 3 closed prices — returns none on every
invocation, and a registry of such strategies emits no signal; the emitted
signals are independent of the accumulated history. -/
theorem rsi_registry_never_signals :
    (∀ (cfg : StrategyConfig) (ind : RsiIndicator) (e : MarketEvent),
        2 ≤ ind.period → RsiStrategy.evaluate cfg ind [e] = none)
    ∧ (∀ (reg : StrategyRegistry) (e : MarketEvent),
        (∀ strat ∈ reg.strategies, ∃ cfg ind, 2 ≤ ind.period
            ∧ strat = RsiStrategy.make cfg ind) →
        (StrategyRegistry.process reg e).2 = [])
    ∧ (∀ (reg reg' : StrategyRegistry) (e : MarketEvent),
        reg.strategies = reg'.strategies →
        (StrategyRegistry.process reg e).2 = (StrategyRegistry.process reg' e).2) := by
  have heval : ∀ (cfg : StrategyConfig) (ind : RsiIndicator) (e : MarketEvent),
      2 ≤ ind.period → RsiStrategy.evaluate cfg ind [e] = none := by
    intro cfg ind e hp
    unfold RsiStrategy.evaluate
    cases hc : e.is_candle_closed
    · simp [List.filter, hc]
    · have hcomp := compute_eq_none_of_lt ind [e.price] (by simp; omega)
      simp [List.filter, hc, hcomp]
  refine ⟨heval, ?_, ?_⟩
  · intro reg e hall
    unfold StrategyRegistry.process
    dsimp only
    rw [List.filterMap_eq_nil_iff]
    intro strat hstrat
    obtain ⟨cfg, ind, hp, rfl⟩ := hall strat (List.mem_filter.mp hstrat).1
    exact heval cfg ind e hp
  · intro reg reg' e hs
    unfold StrategyRegistry.process
    dsimp only
    rw [hs]

/-- Witness for C6 at a concrete input: a registry holding one RSI strategy
with default period 14 emits no signal on a closed candle for its pair. -/
theorem rsi_registry_never_signals_witness :
    (StrategyRegistry.process
        { strategies := [RsiStrategy.make { name := "r", pair := "BTCUSDT", quantity := 1 }
            { period := 14, overbought := 70, oversold := 30 }],
          price_history := [], max_history := 200 }
        { pair := "BTCUSDT", price := 100, openPrice := 100, high := 100, low := 100,
          volume := 1, is_candle_closed := true }).2 = [] := by
  refine rsi_registry_never_signals.2.1 _ _ ?_
  intro strat hstrat
  refine ⟨{ name := "r", pair := "BTCUSDT", quantity := 1 },
    { period := 14, overbought := 70, oversold := 30 }, by norm_num, ?_⟩
  simpa using hstrat

end ClawBot
